import Mathlib

/-!
# Verification of the event-to-subscription bridge
(`packages/data-context/src/actions/DataEmitterActions.ts`)

Shallow embedding of `DataEmitterActions`: the `EventEmitter` bus (`pub`),
the typed publishers (`authChange`, `devChange`, `browserStatusChange`,
all going through `_emit` / `pub.emit`), and the hand-rolled async
iterator returned by `subscribeTo` (`next` / `return`, here `cancel`).

The asynchronous parts are modelled by explicit state passing:

* a JS promise created by `pDefer()` lives in a store `promises`;
  `none` is a pending promise, `some v` a promise resolved with `v`
  (resolving a resolved promise is a no-op, as for a real promise);
* each subscription instance is a record holding the captured variables
  of the `subscribeTo` closure (`evt`, `sendInitial`, `hasSentInitial`,
  `dfd`); `dfd = some pid` means the `dfd` variable currently holds the
  deferred whose promise is slot `pid`;
* a `pull` (`next()`) either returns immediately (synthetic initial
  value) or suspends on a freshly allocated promise slot; that slot is
  resolved, if ever, by the bridge's `subscribed` callback when the bus
  emits;
* bus listeners are identified objects: `subscribed i` is the callback
  closed over subscription `i`; `other` stands for an unrelated
  listener (it records its invocation in a log); `throwing` stands for
  a listener that throws.  Node's `emit` runs listeners in order and an
  exception propagates out of `emit`, skipping the rest, which the
  model reproduces via an `Option Nat` error component.
-/

/-- A JavaScript value as far as the bridge observes it:  `undefined`
(no emit argument), the empty-object sentinel `{}` returned as the
synthetic initial value, or an arbitrary other payload. -/
inductive JSValue where
  | undefined
  | emptyObject
  | raw (n : Nat)
deriving DecidableEq, Repr

/-- The event names: `keyof DataEmitterEvents` has exactly the three
public methods of the abstract class. -/
inductive EvtName where
  | authChange
  | devChange
  | browserStatusChange
deriving DecidableEq, Repr

/-- A callback registered on the bus.  `subscribed i` is the
`subscribed` closure of subscription instance `i`; `other` is any
unrelated listener (records its invocation); `throwing` is a listener
that throws when invoked. -/
inductive Listener where
  | subscribed (subId : Nat)
  | other (oid : Nat)
  | throwing (tid : Nat)
deriving DecidableEq, Repr

def Listener.isThrowing : Listener → Bool
  | .throwing _ => true
  | _ => false

/-- The `{ done, value }` object of the async-iterator protocol. -/
structure IterResult where
  done : Bool
  value : JSValue
deriving DecidableEq, Repr

/-- The listener registry of the `EventEmitter` `pub`, one ordered
listener list per event name. -/
structure Bus where
  authList : List Listener
  devList : List Listener
  browserList : List Listener
deriving DecidableEq, Repr

def Bus.get (b : Bus) : EvtName → List Listener
  | .authChange => b.authList
  | .devChange => b.devList
  | .browserStatusChange => b.browserList

def Bus.set (b : Bus) : EvtName → List Listener → Bus
  | .authChange, l => { b with authList := l }
  | .devChange, l => { b with devList := l }
  | .browserStatusChange, l => { b with browserList := l }

/-- Node's `removeListener` scans the listener list from the end and
removes the most recently added matching entry; absent listener is a
no-op. -/
def removeLastOcc (l : List Listener) (x : Listener) : List Listener :=
  (l.reverse.erase x).reverse

/-- The captured local state of one `subscribeTo` closure. -/
structure SubState where
  evt : EvtName
  sendInitial : Bool
  hasSentInitial : Bool
  dfd : Option Nat
deriving DecidableEq, Repr

/-- Whole-system state: the bus, all subscription instances (index =
instance id), the promise store (`none` pending, `some v` resolved),
and a log of the invocations of `other` listeners. -/
structure SysState where
  bus : Bus
  subs : List SubState
  promises : List (Option JSValue)
  log : List (Nat × JSValue)
deriving DecidableEq, Repr

def initState : SysState := ⟨⟨[], [], []⟩, [], [], []⟩

/-- The `subscribed` callback of subscription `subId`, invoked with
payload `v`: `dfd?.resolve(val)` — if the instance currently holds a
deferred, resolve its promise (a no-op when already resolved). -/
def resolveSub (s : SysState) (subId : Nat) (v : JSValue) : SysState :=
  match s.subs[subId]? with
  | some sub =>
    match sub.dfd with
    | some pid =>
      match s.promises[pid]? with
      | some none => { s with promises := s.promises.set pid (some v) }
      | _ => s
    | none => s
  | none => s

/-- An unrelated (`other`) listener, invoked with payload `v`:
observable only through the log. -/
def logInvoke (s : SysState) (oid : Nat) (v : JSValue) : SysState :=
  { s with log := s.log ++ [(oid, v)] }

/-- Run a snapshot of a listener list in order, Node `emit` style:
a throwing listener aborts the iteration and the error (its id)
escapes; state changes made so far persist. -/
def runListeners (s : SysState) (v : JSValue) : List Listener → SysState × Option Nat
  | [] => (s, none)
  | .subscribed subId :: rest => runListeners (resolveSub s subId v) v rest
  | .other oid :: rest => runListeners (logInvoke s oid v) v rest
  | .throwing tid :: _ => (s, some tid)

/-- `pub.emit(evt, v)` — the bus `signal`: invoke every listener
registered under `e`, in registration order, with payload `v`. -/
def emitS (s : SysState) (e : EvtName) (v : JSValue) : SysState × Option Nat :=
  runListeners s v (s.bus.get e)

/-- `_emit` forwards to `pub.emit`. -/
def emitEvt (s : SysState) (e : EvtName) (v : JSValue) : SysState × Option Nat :=
  emitS s e v

/-- `authChange()`: `this._emit('authChange')` — no payload, so the
listeners receive `undefined`. -/
def authChange (s : SysState) : SysState × Option Nat :=
  emitEvt s .authChange .undefined

/-- `devChange()`: `this._emit('devChange')`. -/
def devChange (s : SysState) : SysState × Option Nat :=
  emitEvt s .devChange .undefined

/-- `browserStatusChange()`: `this._emit('browserStatusChange')`. -/
def browserStatusChange (s : SysState) : SysState × Option Nat :=
  emitEvt s .browserStatusChange .undefined

/-- `subscribeTo(evt, sendInitial)`: create the closure state
(`hasSentInitial = false`, `dfd = undefined`) and register `subscribed`
on the bus (`this.pub.on(evt, subscribed)`), before the iterator is
handed out.  Returns the new instance id. -/
def subscribeTo (s : SysState) (e : EvtName) (sendInitial : Bool) : SysState × Nat :=
  ({ s with
      subs := s.subs ++ [⟨e, sendInitial, false, none⟩],
      bus := s.bus.set e (s.bus.get e ++ [.subscribed s.subs.length]) },
    s.subs.length)

/-- Outcome of a call to `next()`: resolved synchronously with an
iterator result, or suspended awaiting promise slot `pid`
(`await dfd.promise`).  `invalid` is a model artifact for an id with no
instance; it never arises for ids returned by `subscribeTo`. -/
inductive NextOutcome where
  | immediate (r : IterResult)
  | suspended (pid : Nat)
  | invalid
deriving DecidableEq, Repr

/-- The iterator's `next()`:
if `!hasSentInitial && sendInitial`, mark `hasSentInitial` and return
`{ done: false, value: {} }` at once; otherwise `dfd = pDefer()`
(a fresh pending promise slot) and suspend on it. -/
def next (s : SysState) (id : Nat) : SysState × NextOutcome :=
  match s.subs[id]? with
  | none => (s, .invalid)
  | some sub =>
    if !sub.hasSentInitial && sub.sendInitial then
      ({ s with subs := s.subs.set id { sub with hasSentInitial := true } },
        .immediate ⟨false, .emptyObject⟩)
    else
      let pid := s.promises.length
      ({ s with
          promises := s.promises ++ [none],
          subs := s.subs.set id { sub with dfd := some pid } },
        .suspended pid)

/-- The iterator's `return()` (cancellation):
`this.pub.off(evt, subscribed)` (remove the most recent matching
registration from that event's list; no-op if absent), then
`dfd = undefined`, and answer `{ done: true, value: undefined }`. -/
def cancel (s : SysState) (id : Nat) : SysState × IterResult :=
  match s.subs[id]? with
  | none => (s, ⟨true, .undefined⟩)
  | some sub =>
    ({ s with
        bus := s.bus.set sub.evt (removeLastOcc (s.bus.get sub.evt) (.subscribed id)),
        subs := s.subs.set id { sub with dfd := none } },
      ⟨true, .undefined⟩)

/-- Fire a sequence of bus signals, left to right (errors of one emit
do not stop later, independent emits). -/
def signalMany : SysState → List (EvtName × JSValue) → SysState
  | s, [] => s
  | s, (e, v) :: rest => signalMany (emitS s e v).1 rest

/-! ## Basic lemmas about the bus registry and listener removal -/

theorem Bus.get_set_self (b : Bus) (e : EvtName) (l : List Listener) :
    (b.set e l).get e = l := by
  cases e <;> rfl

theorem Bus.get_set_ne (b : Bus) (e e' : EvtName) (l : List Listener)
    (h : e' ≠ e) : (b.set e l).get e' = b.get e' := by
  cases e <;> cases e' <;> first | rfl | exact absurd rfl h

theorem Bus.set_get (b : Bus) (e : EvtName) : b.set e (b.get e) = b := by
  cases e <;> rfl

theorem removeLastOcc_of_not_mem (l : List Listener) (x : Listener)
    (h : x ∉ l) : removeLastOcc l x = l := by
  unfold removeLastOcc
  rw [List.erase_of_not_mem (by simpa using h), List.reverse_reverse]

theorem count_removeLastOcc_self (l : List Listener) (x : Listener) :
    (removeLastOcc l x).count x = l.count x - 1 := by
  unfold removeLastOcc
  rw [List.count_reverse, List.count_erase_self, List.count_reverse]

theorem count_removeLastOcc_ne (l : List Listener) (x y : Listener)
    (h : y ≠ x) : (removeLastOcc l x).count y = l.count y := by
  unfold removeLastOcc
  rw [List.count_reverse, List.count_erase_of_ne h, List.count_reverse]

theorem length_removeLastOcc_of_mem (l : List Listener) (x : Listener)
    (h : x ∈ l) : (removeLastOcc l x).length = l.length - 1 := by
  unfold removeLastOcc
  rw [List.length_reverse, List.length_erase_of_mem (by simpa using h),
    List.length_reverse]

theorem sublist_removeLastOcc (l : List Listener) (x : Listener) :
    List.Sublist (removeLastOcc l x) l := by
  have h := List.Sublist.reverse (List.erase_sublist x l.reverse)
  simpa using h

theorem not_mem_removeLastOcc (l : List Listener) (x : Listener)
    (h : l.count x ≤ 1) : x ∉ removeLastOcc l x := by
  have hc := count_removeLastOcc_self l x
  have : (removeLastOcc l x).count x = 0 := by omega
  exact List.count_eq_zero.mp this

theorem list_set_self {α : Type} : ∀ (l : List α) (i : Nat) (a : α),
    l[i]? = some a → l.set i a = l
  | [], _, _, h => by simp at h
  | b :: t, 0, a, h => by simp_all
  | b :: t, i + 1, a, h => by
    simp only [List.getElem?_cons_succ] at h
    simp [list_set_self t i a h]

/-! ## What each primitive leaves untouched -/

theorem resolveSub_subs (s : SysState) (j : Nat) (v : JSValue) :
    (resolveSub s j v).subs = s.subs := by
  unfold resolveSub
  repeat' split
  all_goals rfl

theorem resolveSub_bus (s : SysState) (j : Nat) (v : JSValue) :
    (resolveSub s j v).bus = s.bus := by
  unfold resolveSub
  repeat' split
  all_goals rfl

theorem resolveSub_promlen (s : SysState) (j : Nat) (v : JSValue) :
    (resolveSub s j v).promises.length = s.promises.length := by
  unfold resolveSub
  repeat' split
  all_goals simp [List.length_set]

theorem runListeners_subs (v : JSValue) :
    ∀ (l : List Listener) (s : SysState), (runListeners s v l).1.subs = s.subs
  | [], s => rfl
  | .subscribed j :: rest, s => by
    rw [runListeners, runListeners_subs v rest, resolveSub_subs]
  | .other oid :: rest, s => by
    rw [runListeners, runListeners_subs v rest]; rfl
  | .throwing tid :: rest, s => rfl

theorem runListeners_bus (v : JSValue) :
    ∀ (l : List Listener) (s : SysState), (runListeners s v l).1.bus = s.bus
  | [], s => rfl
  | .subscribed j :: rest, s => by
    rw [runListeners, runListeners_bus v rest, resolveSub_bus]
  | .other oid :: rest, s => by
    rw [runListeners, runListeners_bus v rest]; rfl
  | .throwing tid :: rest, s => rfl

theorem runListeners_promlen (v : JSValue) :
    ∀ (l : List Listener) (s : SysState),
      (runListeners s v l).1.promises.length = s.promises.length
  | [], s => rfl
  | .subscribed j :: rest, s => by
    rw [runListeners, runListeners_promlen v rest, resolveSub_promlen]
  | .other oid :: rest, s => by
    rw [runListeners, runListeners_promlen v rest]; rfl
  | .throwing tid :: rest, s => rfl

theorem emitS_subs (s : SysState) (e : EvtName) (v : JSValue) :
    (emitS s e v).1.subs = s.subs := runListeners_subs v _ s

theorem emitS_bus (s : SysState) (e : EvtName) (v : JSValue) :
    (emitS s e v).1.bus = s.bus := runListeners_bus v _ s

theorem emitS_promlen (s : SysState) (e : EvtName) (v : JSValue) :
    (emitS s e v).1.promises.length = s.promises.length :=
  runListeners_promlen v _ s

theorem resolveSub_log (s : SysState) (j : Nat) (v : JSValue) :
    (resolveSub s j v).log = s.log := by
  unfold resolveSub
  repeat' split
  all_goals rfl

/-- `resolveSub` either leaves the promise store alone or resolves,
with the emitted payload, the pending slot held by subscription `j`. -/
theorem resolveSub_promises_char (s : SysState) (j : Nat) (v : JSValue) :
    (resolveSub s j v).promises = s.promises ∨
    ∃ sub q, s.subs[j]? = some sub ∧ sub.dfd = some q ∧
      s.promises[q]? = some none ∧
      (resolveSub s j v).promises = s.promises.set q (some v) := by
  unfold resolveSub
  repeat' split
  all_goals first
    | exact Or.inl rfl
    | (rename_i x1 sub h1 x2 q h2 x3 h3
       exact Or.inr ⟨sub, q, h1, h2, h3, rfl⟩)

/-- A promise already resolved stays resolved with the same value
(`resolve` on a settled promise is a no-op). -/
theorem resolveSub_keeps_resolved (s : SysState) (j : Nat) (v : JSValue)
    (pid : Nat) (w : JSValue) (h : s.promises[pid]? = some (some w)) :
    (resolveSub s j v).promises[pid]? = some (some w) := by
  rcases resolveSub_promises_char s j v with hc | ⟨sub, q, _, _, hq, hc⟩
  · rw [hc]; exact h
  · rw [hc]
    have hne : q ≠ pid := fun he => by rw [he, h] at hq; cases hq
    rw [List.getElem?_set_ne hne]; exact h

/-- A pending promise either stays pending or is resolved with the
payload of the current invocation. -/
theorem resolveSub_pending (s : SysState) (j : Nat) (v : JSValue)
    (pid : Nat) (h : s.promises[pid]? = some none) :
    (resolveSub s j v).promises[pid]? = some none ∨
    (resolveSub s j v).promises[pid]? = some (some v) := by
  rcases resolveSub_promises_char s j v with hc | ⟨sub, q, _, _, hq, hc⟩
  · rw [hc]; exact Or.inl h
  · rw [hc]
    by_cases hqp : q = pid
    · subst hqp
      right
      rw [List.getElem?_set_self', h]; rfl
    · rw [List.getElem?_set_ne hqp]; exact Or.inl h

/-- A subscription whose deferred is not slot `pid` cannot resolve
slot `pid`. -/
theorem resolveSub_pending_ne (s : SysState) (j : Nat) (v : JSValue)
    (pid : Nat) (h : s.promises[pid]? = some none)
    (hnot : ∀ subj, s.subs[j]? = some subj → subj.dfd ≠ some pid) :
    (resolveSub s j v).promises[pid]? = some none := by
  rcases resolveSub_promises_char s j v with hc | ⟨sub, q, hsub, hdfd, hq, hc⟩
  · rw [hc]; exact h
  · rw [hc]
    have hne : q ≠ pid := fun he => hnot sub hsub (he ▸ hdfd)
    rw [List.getElem?_set_ne hne]; exact h

/-- Invoking `subscribed` for subscription `id` while its deferred's
promise `pid` is pending resolves `pid` with the invocation payload. -/
theorem resolveSub_resolves (s : SysState) (id : Nat) (v : JSValue)
    (sub : SubState) (pid : Nat) (h1 : s.subs[id]? = some sub)
    (h2 : sub.dfd = some pid) (h3 : s.promises[pid]? = some none) :
    (resolveSub s id v).promises[pid]? = some (some v) := by
  unfold resolveSub
  rw [h1]
  simp only [h2, h3]
  rw [List.getElem?_set_self', h3]
  rfl

/-- Along any listener run, a promise resolved with `w` stays resolved
with `w`. -/
theorem runListeners_keeps_resolved (v : JSValue) (pid : Nat) (w : JSValue) :
    ∀ (l : List Listener) (s : SysState),
      s.promises[pid]? = some (some w) →
      (runListeners s v l).1.promises[pid]? = some (some w)
  | [], s, h => h
  | .subscribed j :: rest, s, h => by
    rw [runListeners]
    exact runListeners_keeps_resolved v pid w rest _
      (resolveSub_keeps_resolved s j v pid w h)
  | .other oid :: rest, s, h => by
    rw [runListeners]
    exact runListeners_keeps_resolved v pid w rest _ h
  | .throwing tid :: rest, s, h => h

/-- Along a run with payload `v`, a pending promise either stays
pending or is resolved with exactly `v`. -/
theorem runListeners_pending_or (v : JSValue) (pid : Nat) :
    ∀ (l : List Listener) (s : SysState),
      s.promises[pid]? = some none →
      (runListeners s v l).1.promises[pid]? = some none ∨
      (runListeners s v l).1.promises[pid]? = some (some v)
  | [], s, h => Or.inl h
  | .subscribed j :: rest, s, h => by
    rw [runListeners]
    rcases resolveSub_pending s j v pid h with h' | h'
    · exact runListeners_pending_or v pid rest _ h'
    · exact Or.inr (runListeners_keeps_resolved v pid v rest _ h')
  | .other oid :: rest, s, h => by
    rw [runListeners]
    exact runListeners_pending_or v pid rest _ h
  | .throwing tid :: rest, s, h => Or.inl h

/-- If `subscribed id` occurs in the run with no throwing listener
before it, and its subscription holds a pending deferred, the run
resolves that deferred's promise with the emitted payload. -/
theorem runListeners_resolves (v : JSValue) (id pid : Nat) :
    ∀ (l1 l2 : List Listener) (s : SysState) (sub : SubState),
      s.subs[id]? = some sub → sub.dfd = some pid →
      s.promises[pid]? = some none →
      (∀ x ∈ l1, x.isThrowing = false) →
      (runListeners s v (l1 ++ .subscribed id :: l2)).1.promises[pid]? =
        some (some v)
  | [], l2, s, sub, hsub, hdfd, hpend, _ => by
    rw [List.nil_append, runListeners]
    exact runListeners_keeps_resolved v pid v l2 _
      (resolveSub_resolves s id v sub pid hsub hdfd hpend)
  | .subscribed j :: l1', l2, s, sub, hsub, hdfd, hpend, hnt => by
    rw [List.cons_append, runListeners]
    have hsub' : (resolveSub s j v).subs[id]? = some sub := by
      rw [resolveSub_subs]; exact hsub
    rcases resolveSub_pending s j v pid hpend with h' | h'
    · exact runListeners_resolves v id pid l1' l2 _ sub hsub' hdfd h'
        (fun x hx => hnt x (List.mem_cons_of_mem _ hx))
    · exact runListeners_keeps_resolved v pid v _ _ h'
  | .other oid :: l1', l2, s, sub, hsub, hdfd, hpend, hnt => by
    rw [List.cons_append, runListeners]
    exact runListeners_resolves v id pid l1' l2 _ sub hsub hdfd hpend
      (fun x hx => hnt x (List.mem_cons_of_mem _ hx))
  | .throwing tid :: l1', l2, s, sub, hsub, hdfd, hpend, hnt => by
    exact absurd (hnt _ (List.mem_cons_self _ _)) (by simp [Listener.isThrowing])

/-- A run that finishes without error encountered no throwing
listener. -/
theorem runListeners_no_throw (v : JSValue) :
    ∀ (l : List Listener) (s : SysState),
      (runListeners s v l).2 = none →
      ∀ x ∈ l, x.isThrowing = false
  | [], s, _, x, hx => absurd hx (List.not_mem_nil x)
  | .subscribed j :: rest, s, h, x, hx => by
    rw [runListeners] at h
    rcases List.mem_cons.mp hx with rfl | hx'
    · rfl
    · exact runListeners_no_throw v rest _ h x hx'
  | .other oid :: rest, s, h, x, hx => by
    rw [runListeners] at h
    rcases List.mem_cons.mp hx with rfl | hx'
    · rfl
    · exact runListeners_no_throw v rest _ h x hx'
  | .throwing tid :: rest, s, h, x, hx => by
    rw [runListeners] at h
    cases h

/-- If no subscription whose `subscribed` callback occurs in the run
holds the deferred of slot `pid`, the run leaves `pid` pending. -/
theorem runListeners_pending_of_no_resolver (v : JSValue) (pid : Nat) :
    ∀ (l : List Listener) (s : SysState),
      s.promises[pid]? = some none →
      (∀ j, Listener.subscribed j ∈ l →
        ∀ subj, s.subs[j]? = some subj → subj.dfd ≠ some pid) →
      (runListeners s v l).1.promises[pid]? = some none
  | [], s, h, _ => h
  | .subscribed j :: rest, s, h, hres => by
    rw [runListeners]
    have h' := resolveSub_pending_ne s j v pid h
      (hres j (List.mem_cons_self _ _))
    refine runListeners_pending_of_no_resolver v pid rest _ h' ?_
    intro j' hj' subj hsubj
    rw [resolveSub_subs] at hsubj
    exact hres j' (List.mem_cons_of_mem _ hj') subj hsubj
  | .other oid :: rest, s, h, hres => by
    rw [runListeners]
    refine runListeners_pending_of_no_resolver v pid rest _ h ?_
    intro j' hj' subj hsubj
    exact hres j' (List.mem_cons_of_mem _ hj') subj hsubj
  | .throwing tid :: rest, s, h, _ => h

/-- The log entries a run of `l` with payload `v` would append: one
per `other` listener, in order. -/
def invocations (v : JSValue) (l : List Listener) : List (Nat × JSValue) :=
  l.filterMap fun x =>
    match x with
    | .other oid => some (oid, v)
    | _ => none

/-- A run that hits a throwing listener reports that listener's error,
and only the `other` listeners strictly before the thrower have been
invoked. -/
theorem runListeners_until_throw (v : JSValue) (t : Nat) :
    ∀ (l1 l2 : List Listener) (s : SysState),
      (∀ x ∈ l1, x.isThrowing = false) →
      (runListeners s v (l1 ++ .throwing t :: l2)).2 = some t ∧
      (runListeners s v (l1 ++ .throwing t :: l2)).1.log =
        s.log ++ invocations v l1
  | [], l2, s, _ => by
    rw [List.nil_append, runListeners]
    simp [invocations]
  | .subscribed j :: l1', l2, s, hnt => by
    rw [List.cons_append, runListeners]
    have ih := runListeners_until_throw v t l1' l2 (resolveSub s j v)
      (fun x hx => hnt x (List.mem_cons_of_mem _ hx))
    refine ⟨ih.1, ?_⟩
    rw [ih.2, resolveSub_log]
    simp [invocations]
  | .other oid :: l1', l2, s, hnt => by
    rw [List.cons_append, runListeners]
    have ih := runListeners_until_throw v t l1' l2 (logInvoke s oid v)
      (fun x hx => hnt x (List.mem_cons_of_mem _ hx))
    refine ⟨ih.1, ?_⟩
    rw [ih.2]
    simp [logInvoke, invocations]
  | .throwing tid :: l1', l2, s, hnt =>
    absurd (hnt _ (List.mem_cons_self _ _)) (by simp [Listener.isThrowing])

theorem signalMany_subs : ∀ (sigs : List (EvtName × JSValue)) (s : SysState),
    (signalMany s sigs).subs = s.subs
  | [], s => rfl
  | (e, v) :: rest, s => by
    rw [signalMany, signalMany_subs rest, emitS_subs]

theorem signalMany_bus : ∀ (sigs : List (EvtName × JSValue)) (s : SysState),
    (signalMany s sigs).bus = s.bus
  | [], s => rfl
  | (e, v) :: rest, s => by
    rw [signalMany, signalMany_bus rest, emitS_bus]

/-- No `subscribed` callback still registered anywhere on the bus
belongs to a subscription holding the deferred of slot `pid`. -/
def Detached (s : SysState) (pid : Nat) : Prop :=
  ∀ (e : EvtName) (j : Nat), Listener.subscribed j ∈ s.bus.get e →
    ∀ subj, s.subs[j]? = some subj → subj.dfd ≠ some pid

/-- A pending promise whose subscription is detached from the bus is
never resolved, however many signals fire. -/
theorem signalMany_pending (pid : Nat) :
    ∀ (sigs : List (EvtName × JSValue)) (s : SysState),
      s.promises[pid]? = some none → Detached s pid →
      (signalMany s sigs).promises[pid]? = some none
  | [], s, h, _ => h
  | (e, v) :: rest, s, h, hdet => by
    rw [signalMany]
    have h' : (emitS s e v).1.promises[pid]? = some none :=
      runListeners_pending_of_no_resolver v pid (s.bus.get e) s h
        (fun j hj subj hsubj => hdet e j hj subj hsubj)
    refine signalMany_pending pid rest _ h' ?_
    intro e' j hj subj hsubj
    rw [emitS_bus] at hj
    rw [emitS_subs] at hsubj
    exact hdet e' j hj subj hsubj

/-- Bool check that no subscription's deferred points outside the
promise store (true in every reachable state). -/
def noDanglingB (s : SysState) : Bool :=
  s.subs.all fun sub =>
    match sub.dfd with
    | some pid => decide (pid < s.promises.length)
    | none => true

theorem noDanglingB_spec (s : SysState) (h : noDanglingB s = true)
    (j : Nat) (sub : SubState) (hj : s.subs[j]? = some sub)
    (pid : Nat) (hd : sub.dfd = some pid) : pid < s.promises.length := by
  have hmem : sub ∈ s.subs := List.getElem?_mem hj
  have := List.all_eq_true.mp h sub hmem
  rw [hd] at this
  exact of_decide_eq_true this

/-! ## Computation lemmas for the iterator operations -/

theorem next_eq_suspended (s : SysState) (id : Nat) (sub : SubState)
    (h : s.subs[id]? = some sub)
    (hcond : sub.hasSentInitial = true ∨ sub.sendInitial = false) :
    next s id =
      ({ s with
          promises := s.promises ++ [none],
          subs := s.subs.set id { sub with dfd := some s.promises.length } },
        NextOutcome.suspended s.promises.length) := by
  have hc : (!sub.hasSentInitial && sub.sendInitial) = false := by
    rcases hcond with h' | h' <;> simp [h']
  simp [next, h, hc]

theorem next_eq_initial (s : SysState) (id : Nat) (sub : SubState)
    (h : s.subs[id]? = some sub)
    (h1 : sub.hasSentInitial = false) (h2 : sub.sendInitial = true) :
    next s id =
      ({ s with subs := s.subs.set id { sub with hasSentInitial := true } },
        NextOutcome.immediate ⟨false, JSValue.emptyObject⟩) := by
  have hc : (!sub.hasSentInitial && sub.sendInitial) = true := by simp [h1, h2]
  simp [next, h, hc]

theorem next_bus (s : SysState) (id : Nat) : (next s id).1.bus = s.bus := by
  unfold next
  repeat' split
  all_goals rfl

theorem cancel_eq (s : SysState) (id : Nat) (sub : SubState)
    (h : s.subs[id]? = some sub) :
    cancel s id =
      ({ s with
          bus := s.bus.set sub.evt
            (removeLastOcc (s.bus.get sub.evt) (.subscribed id)),
          subs := s.subs.set id { sub with dfd := none } },
        ⟨true, JSValue.undefined⟩) := by
  unfold cancel
  rw [h]

/-- All three event names. -/
def allEvts : List EvtName := [.authChange, .devChange, .browserStatusChange]

theorem mem_allEvts (e : EvtName) : e ∈ allEvts := by
  cases e <;> simp [allEvts]

/-! ## The claims -/

/-- C1: for every event name `e` and payload `p`, a subscription opened
on `e` with `sendInitial = false` whose `pull()` is pending when
`signal(e, p)` fires (no listener on `e` throws, so the signal's
listener run completes) resolves that `pull()` with exactly the
payload `p` passed to `signal`: the first `pull()` suspends on a fresh
pending promise slot, and after the emit that slot holds `p`. -/
theorem c1_pull_resolves_with_signalled_payload
    (s : SysState) (e : EvtName) (p : JSValue)
    (hnt : ∀ x ∈ s.bus.get e, x.isThrowing = false) :
    (next (subscribeTo s e false).1 (subscribeTo s e false).2).2 =
      NextOutcome.suspended s.promises.length ∧
    (next (subscribeTo s e false).1 (subscribeTo s e false).2).1.promises[s.promises.length]? = some none ∧
    (emitS (next (subscribeTo s e false).1 (subscribeTo s e false).2).1 e p).1.promises[s.promises.length]? = some (some p) := by
  have hsub1 : (s.subs ++ [(⟨e, false, false, none⟩ : SubState)])[s.subs.length]? =
      some ⟨e, false, false, none⟩ := List.getElem?_concat_length _ _
  have hnext := next_eq_suspended (subscribeTo s e false).1
    (subscribeTo s e false).2 ⟨e, false, false, none⟩ hsub1 (Or.inr rfl)
  have hsub2 : ((s.subs ++ [(⟨e, false, false, none⟩ : SubState)]).set s.subs.length
      ⟨e, false, false, some s.promises.length⟩)[s.subs.length]? =
      some ⟨e, false, false, some s.promises.length⟩ := by
    rw [List.getElem?_set_self', hsub1]
    rfl
  have hpend : (s.promises ++ [(none : Option JSValue)])[s.promises.length]? =
      some none := List.getElem?_concat_length _ _
  have hnt' : ∀ x ∈ s.bus.get e, x.isThrowing = false := hnt
  refine ⟨?_, ?_, ?_⟩
  · rw [hnext]
    rfl
  · rw [hnext]
    exact hpend
  · rw [hnext]
    show (runListeners ⟨s.bus.set e (s.bus.get e ++ [Listener.subscribed s.subs.length]), (s.subs ++ [(⟨e, false, false, none⟩ : SubState)]).set s.subs.length (⟨e, false, false, some s.promises.length⟩ : SubState), s.promises ++ [none], s.log⟩ p ((Bus.set s.bus e (s.bus.get e ++ [Listener.subscribed s.subs.length])).get e)).1.promises[s.promises.length]? = some (some p)
    rw [Bus.get_set_self]
    exact runListeners_resolves p s.subs.length s.promises.length
      (s.bus.get e) [] _ ⟨e, false, false, some s.promises.length⟩
      hsub2 rfl hpend hnt'

/-- Witness for C1: concrete run from the empty state on
`authChange` with payload `raw 42`. -/
theorem c1_witness :
    (∀ x ∈ initState.bus.get .authChange, x.isThrowing = false) ∧
    ((next (subscribeTo initState .authChange false).1
        (subscribeTo initState .authChange false).2).2 =
      NextOutcome.suspended 0 ∧
     (next (subscribeTo initState .authChange false).1
        (subscribeTo initState .authChange false).2).1.promises[0]? = some none ∧
     (emitS (next (subscribeTo initState .authChange false).1
        (subscribeTo initState .authChange false).2).1 .authChange
        (JSValue.raw 42)).1.promises[0]? = some (some (JSValue.raw 42))) :=
  ⟨fun x hx => absurd hx (List.not_mem_nil x),
   c1_pull_resolves_with_signalled_payload initState .authChange (.raw 42)
     (fun x hx => absurd hx (List.not_mem_nil x))⟩

/-- C2: a subscription opened with `sendInitial = true`: the first
`pull()` resolves immediately — no bus signal, no promise allocated —
with the synthetic `{ done: false, value: {} }` and sets
`hasSentInitial`; the second `pull()` behaves exactly as the
`sendInitial = false` case (suspends on a fresh pending slot, resolved
with the payload of the next signal), and so does every later
`pull()` of any subscription whose `hasSentInitial` flag is set. -/
theorem c2_send_initial_first_then_waits
    (s : SysState) (e : EvtName) (p : JSValue)
    (hnt : ∀ x ∈ s.bus.get e, x.isThrowing = false) :
    (next (subscribeTo s e true).1 (subscribeTo s e true).2).2 = NextOutcome.immediate ⟨false, JSValue.emptyObject⟩ ∧
    (next (subscribeTo s e true).1 (subscribeTo s e true).2).1.subs[(subscribeTo s e true).2]? = some ⟨e, true, true, none⟩ ∧
    (next (subscribeTo s e true).1 (subscribeTo s e true).2).1.bus = (subscribeTo s e true).1.bus ∧
    (next (subscribeTo s e true).1 (subscribeTo s e true).2).1.promises = (subscribeTo s e true).1.promises ∧
    (next (next (subscribeTo s e true).1 (subscribeTo s e true).2).1 (subscribeTo s e true).2).2 = NextOutcome.suspended s.promises.length ∧
    (emitS (next (next (subscribeTo s e true).1 (subscribeTo s e true).2).1 (subscribeTo s e true).2).1 e p).1.promises[s.promises.length]? = some (some p) ∧
    (∀ (t : SysState) (id : Nat) (sub : SubState), t.subs[id]? = some sub →
      sub.hasSentInitial = true → (next t id).2 = NextOutcome.suspended t.promises.length) := by
  have hsub1 : (s.subs ++ [(⟨e, true, false, none⟩ : SubState)])[s.subs.length]? =
      some ⟨e, true, false, none⟩ := List.getElem?_concat_length _ _
  have hni : next (subscribeTo s e true).1 (subscribeTo s e true).2 =
      (⟨s.bus.set e (s.bus.get e ++ [Listener.subscribed s.subs.length]),
        (s.subs ++ [(⟨e, true, false, none⟩ : SubState)]).set s.subs.length (⟨e, true, true, none⟩ : SubState),
        s.promises, s.log⟩,
       NextOutcome.immediate ⟨false, JSValue.emptyObject⟩) :=
    next_eq_initial _ _ ⟨e, true, false, none⟩ hsub1 rfl rfl
  have hs2 : ((s.subs ++ [(⟨e, true, false, none⟩ : SubState)]).set s.subs.length (⟨e, true, true, none⟩ : SubState))[s.subs.length]? =
      some (⟨e, true, true, none⟩ : SubState) := by
    rw [List.getElem?_set_self', hsub1]
    rfl
  have hni2 : next (next (subscribeTo s e true).1 (subscribeTo s e true).2).1 (subscribeTo s e true).2 =
      (⟨s.bus.set e (s.bus.get e ++ [Listener.subscribed s.subs.length]),
        ((s.subs ++ [(⟨e, true, false, none⟩ : SubState)]).set s.subs.length (⟨e, true, true, none⟩ : SubState)).set s.subs.length (⟨e, true, true, some s.promises.length⟩ : SubState),
        s.promises ++ [none], s.log⟩,
       NextOutcome.suspended s.promises.length) := by
    rw [hni]
    exact next_eq_suspended _ _ ⟨e, true, true, none⟩ hs2 (Or.inl rfl)
  have hs3 : (((s.subs ++ [(⟨e, true, false, none⟩ : SubState)]).set s.subs.length (⟨e, true, true, none⟩ : SubState)).set s.subs.length (⟨e, true, true, some s.promises.length⟩ : SubState))[s.subs.length]? =
      some (⟨e, true, true, some s.promises.length⟩ : SubState) := by
    rw [List.getElem?_set_self', hs2]
    rfl
  have hpend : (s.promises ++ [(none : Option JSValue)])[s.promises.length]? =
      some none := List.getElem?_concat_length _ _
  refine ⟨?_, ?_, ?_, ?_, ?_, ?_, ?_⟩
  · rw [hni]
  · rw [hni]
    exact hs2
  · rw [hni]
    rfl
  · rw [hni]
    rfl
  · rw [hni2]
  · rw [hni2]
    show (runListeners ⟨s.bus.set e (s.bus.get e ++ [Listener.subscribed s.subs.length]), ((s.subs ++ [(⟨e, true, false, none⟩ : SubState)]).set s.subs.length (⟨e, true, true, none⟩ : SubState)).set s.subs.length (⟨e, true, true, some s.promises.length⟩ : SubState), s.promises ++ [none], s.log⟩ p ((Bus.set s.bus e (s.bus.get e ++ [Listener.subscribed s.subs.length])).get e)).1.promises[s.promises.length]? = some (some p)
    rw [Bus.get_set_self]
    exact runListeners_resolves p s.subs.length s.promises.length
      (s.bus.get e) [] _ ⟨e, true, true, some s.promises.length⟩
      hs3 rfl hpend hnt
  · intro t id sub h hflag
    rw [next_eq_suspended t id sub h (Or.inl hflag)]

/-- Witness for C2: concrete run from the empty state on
`devChange` with payload `raw 7`. -/
theorem c2_witness :
    (∀ x ∈ initState.bus.get .devChange, x.isThrowing = false) ∧
    ((next (subscribeTo initState .devChange true).1 (subscribeTo initState .devChange true).2).2 = NextOutcome.immediate ⟨false, JSValue.emptyObject⟩ ∧
     (next (subscribeTo initState .devChange true).1 (subscribeTo initState .devChange true).2).1.subs[(subscribeTo initState .devChange true).2]? = some ⟨.devChange, true, true, none⟩ ∧
     (next (subscribeTo initState .devChange true).1 (subscribeTo initState .devChange true).2).1.bus = (subscribeTo initState .devChange true).1.bus ∧
     (next (subscribeTo initState .devChange true).1 (subscribeTo initState .devChange true).2).1.promises = (subscribeTo initState .devChange true).1.promises ∧
     (next (next (subscribeTo initState .devChange true).1 (subscribeTo initState .devChange true).2).1 (subscribeTo initState .devChange true).2).2 = NextOutcome.suspended 0 ∧
     (emitS (next (next (subscribeTo initState .devChange true).1 (subscribeTo initState .devChange true).2).1 (subscribeTo initState .devChange true).2).1 .devChange (JSValue.raw 7)).1.promises[0]? = some (some (JSValue.raw 7)) ∧
     (∀ (t : SysState) (id : Nat) (sub : SubState), t.subs[id]? = some sub →
       sub.hasSentInitial = true → (next t id).2 = NextOutcome.suspended t.promises.length)) :=
  ⟨fun x hx => absurd hx (List.not_mem_nil x),
   c2_send_initial_first_then_waits initState .devChange (.raw 7)
     (fun x hx => absurd hx (List.not_mem_nil x))⟩

/-- C3 (counterexample to the claim as stated): after `cancel()` on a
subscription opened with `sendInitial = true` that has not yet pulled,
the next `pull()` still resolves immediately with a value (the
synthetic initial `{ done: false, value: {} }`): `cancel` clears
neither `sendInitial` nor `hasSentInitial`, so the instance is not in
a terminal state for the initial-value path. -/
theorem c3_counterexample :
    ∃ r, (next (cancel (subscribeTo initState .authChange true).1 0).1 0).2 =
      NextOutcome.immediate r ∧ r.done = false :=
  ⟨⟨false, JSValue.emptyObject⟩, by decide, rfl⟩

/-- C3 (amended): once `cancel()` has been called, no later `pull()`
ever resolves via a bus signal — a later `pull()` in the live state
(initial already sent, or `sendInitial = false`) suspends on a promise
slot that stays pending under every subsequent signal sequence, i.e.
every late bus signal is discarded; the one exception is the
`sendInitial = true`, initial-not-yet-sent state, where a later
`pull()` still resolves immediately with the synthetic initial
value. -/
theorem c3_amended_cancelled_never_resolves_via_bus
    (s : SysState) (id : Nat) (sub : SubState)
    (hs : s.subs[id]? = some sub)
    (hnd : noDanglingB s = true)
    (hcnt : (s.bus.get sub.evt).count (Listener.subscribed id) ≤ 1)
    (hother : ∀ e ∈ allEvts, e ≠ sub.evt → Listener.subscribed id ∉ s.bus.get e) :
    ((sub.hasSentInitial = true ∨ sub.sendInitial = false) →
      (next (cancel s id).1 id).2 = NextOutcome.suspended s.promises.length ∧
      ∀ sigs, (signalMany (next (cancel s id).1 id).1 sigs).promises[s.promises.length]? = some none) ∧
    ((sub.hasSentInitial = false ∧ sub.sendInitial = true) →
      (next (cancel s id).1 id).2 = NextOutcome.immediate ⟨false, JSValue.emptyObject⟩) := by
  have hc := cancel_eq s id sub hs
  have hs1 : (s.subs.set id { sub with dfd := none })[id]? =
      some { sub with dfd := none } := by
    rw [List.getElem?_set_self', hs]
    rfl
  constructor
  · intro hlive
    have hnx : next (cancel s id).1 id =
        (⟨Bus.set s.bus sub.evt (removeLastOcc (s.bus.get sub.evt) (Listener.subscribed id)),
          (s.subs.set id { sub with dfd := none }).set id { sub with dfd := some s.promises.length },
          s.promises ++ [none], s.log⟩,
         NextOutcome.suspended s.promises.length) := by
      rw [hc]
      exact next_eq_suspended _ _ { sub with dfd := none } hs1 hlive
    have hpend : (s.promises ++ [(none : Option JSValue)])[s.promises.length]? =
        some none := List.getElem?_concat_length _ _
    have hdet : ∀ (e' : EvtName) (j : Nat),
        Listener.subscribed j ∈
          (Bus.set s.bus sub.evt (removeLastOcc (s.bus.get sub.evt) (Listener.subscribed id))).get e' →
        ∀ subj, ((s.subs.set id { sub with dfd := none }).set id { sub with dfd := some s.promises.length })[j]? = some subj →
        subj.dfd ≠ some s.promises.length := by
      intro e' j hj subj hsubj hdfd
      by_cases hji : j = id
      · subst hji
        by_cases he : e' = sub.evt
        · subst he
          rw [Bus.get_set_self] at hj
          exact absurd hj (not_mem_removeLastOcc _ _ hcnt)
        · rw [Bus.get_set_ne _ _ _ _ he] at hj
          exact absurd hj (hother e' (mem_allEvts e') he)
      · rw [List.getElem?_set_ne (fun h => hji h.symm),
          List.getElem?_set_ne (fun h => hji h.symm)] at hsubj
        exact absurd (noDanglingB_spec s hnd j subj hsubj s.promises.length hdfd)
          (lt_irrefl _)
    refine ⟨?_, ?_⟩
    · rw [hnx]
    · intro sigs
      rw [hnx]
      exact signalMany_pending s.promises.length sigs _ hpend hdet
  · intro hpre
    rw [hc]
    exact congrArg Prod.snd
      (next_eq_initial _ id { sub with dfd := none } hs1 hpre.1 hpre.2)

/-- Witness for the amended C3: a concrete subscription on
`browserStatusChange` that has already consumed its initial value,
then is cancelled; a later pull suspends and a burst of signals on all
three events leaves it pending forever. -/
theorem c3_witness :
    ((next (subscribeTo initState .browserStatusChange true).1 0).1.subs[0]? =
      some ⟨.browserStatusChange, true, true, none⟩ ∧
     noDanglingB (next (subscribeTo initState .browserStatusChange true).1 0).1 = true) ∧
    ((next (cancel (next (subscribeTo initState .browserStatusChange true).1 0).1 0).1 0).2 =
      NextOutcome.suspended 0 ∧
     (signalMany (next (cancel (next (subscribeTo initState .browserStatusChange true).1 0).1 0).1 0).1
       [(.browserStatusChange, JSValue.raw 1), (.authChange, JSValue.raw 2), (.browserStatusChange, JSValue.raw 3)]).promises[0]? = some none) :=
  ⟨⟨by decide, by decide⟩,
   (c3_amended_cancelled_never_resolves_via_bus
      (next (subscribeTo initState .browserStatusChange true).1 0).1 0
      ⟨.browserStatusChange, true, true, none⟩ (by decide) (by decide)
      (by decide) (by decide)).1 (Or.inl rfl) |>.imp id
      (fun h => h [(.browserStatusChange, JSValue.raw 1), (.authChange, JSValue.raw 2), (.browserStatusChange, JSValue.raw 3)])⟩

/-- C4: after `cancel()` on a subscription registered (once) for its
event, the bus's listener list for that event no longer contains the
subscription's callback, exactly one entry was removed (every other
listener keeps its registration count, the length drops by one, and
the relative order of the survivors is preserved), and the listener
lists of all other events are untouched. -/
theorem c4_cancel_removes_exactly_own_registration
    (s : SysState) (id : Nat) (sub : SubState)
    (hs : s.subs[id]? = some sub)
    (hcnt : (s.bus.get sub.evt).count (Listener.subscribed id) = 1) :
    Listener.subscribed id ∉ (cancel s id).1.bus.get sub.evt ∧
    (∀ l, l ≠ Listener.subscribed id →
      ((cancel s id).1.bus.get sub.evt).count l = (s.bus.get sub.evt).count l) ∧
    ((cancel s id).1.bus.get sub.evt).length + 1 = (s.bus.get sub.evt).length ∧
    List.Sublist ((cancel s id).1.bus.get sub.evt) (s.bus.get sub.evt) ∧
    (∀ e, e ≠ sub.evt → (cancel s id).1.bus.get e = s.bus.get e) := by
  have hc := cancel_eq s id sub hs
  have hmem : Listener.subscribed id ∈ s.bus.get sub.evt :=
    List.count_pos_iff.mp (by omega)
  have hlen : 0 < (s.bus.get sub.evt).length := List.length_pos_of_mem hmem
  refine ⟨?_, ?_, ?_, ?_, ?_⟩
  · rw [hc]
    show Listener.subscribed id ∉
      (Bus.set s.bus sub.evt (removeLastOcc (s.bus.get sub.evt) (Listener.subscribed id))).get sub.evt
    rw [Bus.get_set_self]
    exact not_mem_removeLastOcc _ _ (le_of_eq hcnt)
  · intro l hl
    rw [hc]
    show ((Bus.set s.bus sub.evt (removeLastOcc (s.bus.get sub.evt) (Listener.subscribed id))).get sub.evt).count l = _
    rw [Bus.get_set_self]
    exact count_removeLastOcc_ne _ _ _ hl
  · rw [hc]
    show ((Bus.set s.bus sub.evt (removeLastOcc (s.bus.get sub.evt) (Listener.subscribed id))).get sub.evt).length + 1 = _
    rw [Bus.get_set_self, length_removeLastOcc_of_mem _ _ hmem]
    omega
  · rw [hc]
    show List.Sublist
      ((Bus.set s.bus sub.evt (removeLastOcc (s.bus.get sub.evt) (Listener.subscribed id))).get sub.evt)
      (s.bus.get sub.evt)
    rw [Bus.get_set_self]
    exact sublist_removeLastOcc _ _
  · intro e he
    rw [hc]
    show (Bus.set s.bus sub.evt (removeLastOcc (s.bus.get sub.evt) (Listener.subscribed id))).get e = _
    exact Bus.get_set_ne _ _ _ _ he

/-- Witness for C4: two subscriptions and an unrelated listener on
`authChange`; cancelling subscription 0 removes exactly its own
registration. -/
theorem c4_witness :
    ((subscribeTo (subscribeTo ⟨⟨[Listener.other 9], [], []⟩, [], [], []⟩ .authChange true).1 .authChange false).1.subs[0]? = some ⟨.authChange, true, false, none⟩ ∧
     ((subscribeTo (subscribeTo ⟨⟨[Listener.other 9], [], []⟩, [], [], []⟩ .authChange true).1 .authChange false).1.bus.get .authChange).count (Listener.subscribed 0) = 1) ∧
    (Listener.subscribed 0 ∉ (cancel (subscribeTo (subscribeTo ⟨⟨[Listener.other 9], [], []⟩, [], [], []⟩ .authChange true).1 .authChange false).1 0).1.bus.get .authChange ∧
     (∀ l, l ≠ Listener.subscribed 0 →
       ((cancel (subscribeTo (subscribeTo ⟨⟨[Listener.other 9], [], []⟩, [], [], []⟩ .authChange true).1 .authChange false).1 0).1.bus.get .authChange).count l =
       ((subscribeTo (subscribeTo ⟨⟨[Listener.other 9], [], []⟩, [], [], []⟩ .authChange true).1 .authChange false).1.bus.get .authChange).count l) ∧
     ((cancel (subscribeTo (subscribeTo ⟨⟨[Listener.other 9], [], []⟩, [], [], []⟩ .authChange true).1 .authChange false).1 0).1.bus.get .authChange).length + 1 =
       ((subscribeTo (subscribeTo ⟨⟨[Listener.other 9], [], []⟩, [], [], []⟩ .authChange true).1 .authChange false).1.bus.get .authChange).length ∧
     List.Sublist ((cancel (subscribeTo (subscribeTo ⟨⟨[Listener.other 9], [], []⟩, [], [], []⟩ .authChange true).1 .authChange false).1 0).1.bus.get .authChange)
       ((subscribeTo (subscribeTo ⟨⟨[Listener.other 9], [], []⟩, [], [], []⟩ .authChange true).1 .authChange false).1.bus.get .authChange) ∧
     (∀ e, e ≠ EvtName.authChange →
       (cancel (subscribeTo (subscribeTo ⟨⟨[Listener.other 9], [], []⟩, [], [], []⟩ .authChange true).1 .authChange false).1 0).1.bus.get e =
       (subscribeTo (subscribeTo ⟨⟨[Listener.other 9], [], []⟩, [], [], []⟩ .authChange true).1 .authChange false).1.bus.get e)) :=
  ⟨⟨by decide, by decide⟩,
   c4_cancel_removes_exactly_own_registration
     (subscribeTo (subscribeTo ⟨⟨[Listener.other 9], [], []⟩, [], [], []⟩ .authChange true).1 .authChange false).1 0
     ⟨.authChange, true, false, none⟩ (by decide) (by decide)⟩

/-- C5 (counterexample to the claim as stated): with listeners
`[throwing 7, other 3]` registered under `authChange`, `signal` lets
the first listener's error escape (`emit` reports error 7) and the
remaining listener `other 3` is never invoked (the log stays empty).
The bus is Node's `EventEmitter`: an exception thrown by a listener
propagates out of `emit` and aborts the iteration. -/
theorem c5_counterexample :
    (emitS ⟨⟨[Listener.throwing 7, Listener.other 3], [], []⟩, [], [], []⟩
      .authChange (JSValue.raw 0)).2 = some 7 ∧
    (emitS ⟨⟨[Listener.throwing 7, Listener.other 3], [], []⟩, [], [], []⟩
      .authChange (JSValue.raw 0)).1.log = [] := by
  decide

/-- C5 (amended): if a callback registered under `e` throws during
`signal(e, v)`, the thrown error escapes the `signal()` call to its
caller (the emit reports that listener's error), the callbacks
registered before the thrower have been invoked with the payload `v`,
and no callback after the thrower runs: the invocation log gains
exactly the entries of the listeners preceding the first thrower. -/
theorem c5_amended_throwing_listener_aborts_signal
    (s : SysState) (e : EvtName) (v : JSValue)
    (l1 : List Listener) (t : Nat) (l2 : List Listener)
    (hb : s.bus.get e = l1 ++ Listener.throwing t :: l2)
    (hnt : ∀ x ∈ l1, x.isThrowing = false) :
    (emitS s e v).2 = some t ∧
    (emitS s e v).1.log = s.log ++ invocations v l1 := by
  unfold emitS
  rw [hb]
  exact runListeners_until_throw v t l1 l2 s hnt

/-- Witness for the amended C5 at a concrete bus. -/
theorem c5_witness :
    (⟨⟨[Listener.other 1, Listener.throwing 7, Listener.other 3], [], []⟩, [], [], []⟩ : SysState).bus.get .authChange =
      [Listener.other 1] ++ Listener.throwing 7 :: [Listener.other 3] ∧
    ((emitS ⟨⟨[Listener.other 1, Listener.throwing 7, Listener.other 3], [], []⟩, [], [], []⟩ .authChange (JSValue.raw 5)).2 = some 7 ∧
     (emitS ⟨⟨[Listener.other 1, Listener.throwing 7, Listener.other 3], [], []⟩, [], [], []⟩ .authChange (JSValue.raw 5)).1.log =
       [] ++ invocations (JSValue.raw 5) [Listener.other 1]) :=
  ⟨rfl,
   c5_amended_throwing_listener_aborts_signal
     ⟨⟨[Listener.other 1, Listener.throwing 7, Listener.other 3], [], []⟩, [], [], []⟩
     .authChange (JSValue.raw 5) [Listener.other 1] 7 [Listener.other 3] rfl
     (by decide)⟩

/-- C6: the subscription's callback is registered on the bus during
`subscribeTo` (appended to the event's listener list before the handle
is returned, other events untouched); `next()` performs no bus
registration and `signal` never changes the registry, so the callback
stays registered from open until `cancel`; and whenever the
subscription's deferred is pending and its callback is reachable in
the fired event's list (no thrower before it), the signal is observed:
the pending slot is resolved with the signalled payload. -/
theorem c6_registration_at_open_time
    (s : SysState) (e : EvtName) (b : Bool) (t : SysState) (id : Nat)
    (e' : EvtName) (v : JSValue) (sub : SubState) (pid : Nat)
    (l1 l2 : List Listener)
    (h1 : t.subs[id]? = some sub) (h2 : sub.dfd = some pid)
    (h3 : t.promises[pid]? = some none)
    (h4 : t.bus.get e' = l1 ++ Listener.subscribed id :: l2)
    (h5 : ∀ x ∈ l1, x.isThrowing = false) :
    (subscribeTo s e b).1.bus.get e = s.bus.get e ++ [Listener.subscribed s.subs.length] ∧
    (∀ e0, e0 ≠ e → (subscribeTo s e b).1.bus.get e0 = s.bus.get e0) ∧
    (∀ (u : SysState) (j : Nat), (next u j).1.bus = u.bus) ∧
    (∀ (u : SysState) (e0 : EvtName) (w : JSValue), (emitS u e0 w).1.bus = u.bus) ∧
    (emitS t e' v).1.promises[pid]? = some (some v) := by
  refine ⟨Bus.get_set_self _ _ _, ?_, next_bus, emitS_bus, ?_⟩
  · intro e0 he0
    exact Bus.get_set_ne _ _ _ _ he0
  · unfold emitS
    rw [h4]
    exact runListeners_resolves v id pid l1 l2 t sub h1 h2 h3 h5

/-- Witness for C6: a suspended subscription on `authChange` observes
a concrete signal. -/
theorem c6_witness :
    ((next (subscribeTo initState .authChange false).1 0).1.subs[0]? = some ⟨.authChange, false, false, some 0⟩ ∧
     (next (subscribeTo initState .authChange false).1 0).1.promises[0]? = some none ∧
     (next (subscribeTo initState .authChange false).1 0).1.bus.get .authChange = [] ++ Listener.subscribed 0 :: []) ∧
    (emitS (next (subscribeTo initState .authChange false).1 0).1 .authChange (JSValue.raw 3)).1.promises[0]? = some (some (JSValue.raw 3)) :=
  ⟨⟨by decide, by decide, by decide⟩,
   (c6_registration_at_open_time initState .devChange true
      (next (subscribeTo initState .authChange false).1 0).1 0
      .authChange (JSValue.raw 3) ⟨.authChange, false, false, some 0⟩ 0 [] []
      (by decide) rfl (by decide) (by decide) (by decide)).2.2.2.2⟩

/-- C7: signals are observed by successive `pull()`s in signal order,
with no reordering and no coalescing, and a signal with no pending
waiter is dropped.  From a live subscription whose `pull()` is
suspended on pending slot `pid`: the first signal `p1` resolves that
pull with `p1`; a second signal `p2` fired while no pull is pending
changes nothing (the delivered value stays `p1`, and the slot of the
next pull starts out pending, so `p2` is never delivered); the next
`pull()` suspends on a fresh distinct slot, and the third signal `p3`
resolves it with `p3` — the pulls observe `p1` then `p3`, in signal
order. -/
theorem c7_signal_order_no_coalescing_drop
    (t : SysState) (id : Nat) (e : EvtName) (sub : SubState) (pid : Nat)
    (p1 p2 p3 : JSValue) (l1 l2 : List Listener)
    (hsub : t.subs[id]? = some sub) (hdfd : sub.dfd = some pid)
    (hpend : t.promises[pid]? = some none)
    (hreg : t.bus.get e = l1 ++ Listener.subscribed id :: l2)
    (hnt : ∀ x ∈ t.bus.get e, x.isThrowing = false)
    (hlive : sub.hasSentInitial = true ∨ sub.sendInitial = false) :
    (emitS t e p1).1.promises[pid]? = some (some p1) ∧
    (emitS (emitS t e p1).1 e p2).1.promises[pid]? = some (some p1) ∧
    pid < t.promises.length ∧
    (next (emitS (emitS t e p1).1 e p2).1 id).2 = NextOutcome.suspended t.promises.length ∧
    (next (emitS (emitS t e p1).1 e p2).1 id).1.promises[t.promises.length]? = some none ∧
    (emitS (next (emitS (emitS t e p1).1 e p2).1 id).1 e p3).1.promises[t.promises.length]? = some (some p3) ∧
    (emitS (next (emitS (emitS t e p1).1 e p2).1 id).1 e p3).1.promises[pid]? = some (some p1) := by
  have hnt1 : ∀ x ∈ l1, x.isThrowing = false := fun x hx =>
    hnt x (by rw [hreg]; exact List.mem_append_left _ hx)
  have hpidlt : pid < t.promises.length := (List.getElem?_eq_some.mp hpend).1
  have hp1 : (emitS t e p1).1.promises[pid]? = some (some p1) := by
    unfold emitS
    rw [hreg]
    exact runListeners_resolves p1 id pid l1 l2 t sub hsub hdfd hpend hnt1
  have hbusA : (emitS t e p1).1.bus = t.bus := emitS_bus _ _ _
  have hp2 : (emitS (emitS t e p1).1 e p2).1.promises[pid]? = some (some p1) := by
    show (runListeners (emitS t e p1).1 p2 ((emitS t e p1).1.bus.get e)).1.promises[pid]? = _
    rw [hbusA, hreg]
    exact runListeners_keeps_resolved p2 pid p1 _ _ hp1
  have hbusB : (emitS (emitS t e p1).1 e p2).1.bus = t.bus := by
    rw [emitS_bus, hbusA]
  have hsubB : (emitS (emitS t e p1).1 e p2).1.subs[id]? = some sub := by
    rw [emitS_subs, emitS_subs]
    exact hsub
  have hlenB : (emitS (emitS t e p1).1 e p2).1.promises.length = t.promises.length := by
    rw [emitS_promlen, emitS_promlen]
  have hnx := next_eq_suspended _ id sub hsubB hlive
  have hpendN : (next (emitS (emitS t e p1).1 e p2).1 id).1.promises[t.promises.length]? = some none := by
    rw [hnx, ← hlenB]
    exact List.getElem?_concat_length _ _
  have hsubN : (next (emitS (emitS t e p1).1 e p2).1 id).1.subs[id]? =
      some { sub with dfd := some t.promises.length } := by
    rw [hnx]
    show ((emitS (emitS t e p1).1 e p2).1.subs.set id { sub with dfd := some (emitS (emitS t e p1).1 e p2).1.promises.length })[id]? = _
    rw [List.getElem?_set_self', hsubB, hlenB]
    rfl
  have hbusN : (next (emitS (emitS t e p1).1 e p2).1 id).1.bus = t.bus := by
    rw [next_bus, hbusB]
  have hpmN : (next (emitS (emitS t e p1).1 e p2).1 id).1.promises[pid]? = some (some p1) := by
    rw [hnx]
    show ((emitS (emitS t e p1).1 e p2).1.promises ++ [none])[pid]? = _
    rw [List.getElem?_append]
    rw [if_pos (by rw [hlenB]; exact hpidlt)]
    exact hp2
  refine ⟨hp1, hp2, hpidlt, ?_, hpendN, ?_, ?_⟩
  · rw [hnx, hlenB]
  · show (runListeners (next (emitS (emitS t e p1).1 e p2).1 id).1 p3 ((next (emitS (emitS t e p1).1 e p2).1 id).1.bus.get e)).1.promises[t.promises.length]? = _
    rw [hbusN, hreg]
    exact runListeners_resolves p3 id t.promises.length l1 l2 _
      { sub with dfd := some t.promises.length } hsubN rfl hpendN hnt1
  · show (runListeners (next (emitS (emitS t e p1).1 e p2).1 id).1 p3 ((next (emitS (emitS t e p1).1 e p2).1 id).1.bus.get e)).1.promises[pid]? = _
    rw [hbusN, hreg]
    exact runListeners_keeps_resolved p3 pid p1 _ _ hpmN

/-- Witness for C7: the concrete suspended subscription on
`authChange`, signalled with `raw 1`, `raw 2`, `raw 3`. -/
theorem c7_witness :
    ((next (subscribeTo initState .authChange false).1 0).1.subs[0]? = some ⟨.authChange, false, false, some 0⟩ ∧
     (next (subscribeTo initState .authChange false).1 0).1.promises[0]? = some none ∧
     (next (subscribeTo initState .authChange false).1 0).1.bus.get .authChange = [] ++ Listener.subscribed 0 :: []) ∧
    ((emitS (next (subscribeTo initState .authChange false).1 0).1 .authChange (JSValue.raw 1)).1.promises[0]? = some (some (JSValue.raw 1)) ∧
     (emitS (emitS (next (subscribeTo initState .authChange false).1 0).1 .authChange (JSValue.raw 1)).1 .authChange (JSValue.raw 2)).1.promises[0]? = some (some (JSValue.raw 1)) ∧
     0 < 1 ∧
     (next (emitS (emitS (next (subscribeTo initState .authChange false).1 0).1 .authChange (JSValue.raw 1)).1 .authChange (JSValue.raw 2)).1 0).2 = NextOutcome.suspended 1 ∧
     (next (emitS (emitS (next (subscribeTo initState .authChange false).1 0).1 .authChange (JSValue.raw 1)).1 .authChange (JSValue.raw 2)).1 0).1.promises[1]? = some none ∧
     (emitS (next (emitS (emitS (next (subscribeTo initState .authChange false).1 0).1 .authChange (JSValue.raw 1)).1 .authChange (JSValue.raw 2)).1 0).1 .authChange (JSValue.raw 3)).1.promises[1]? = some (some (JSValue.raw 3)) ∧
     (emitS (next (emitS (emitS (next (subscribeTo initState .authChange false).1 0).1 .authChange (JSValue.raw 1)).1 .authChange (JSValue.raw 2)).1 0).1 .authChange (JSValue.raw 3)).1.promises[0]? = some (some (JSValue.raw 1))) :=
  ⟨⟨by decide, by decide, by decide⟩,
   c7_signal_order_no_coalescing_drop
     (next (subscribeTo initState .authChange false).1 0).1 0 .authChange
     ⟨.authChange, false, false, some 0⟩ 0 (.raw 1) (.raw 2) (.raw 3) [] []
     (by decide) rfl (by decide) (by decide) (by decide) (Or.inr rfl)⟩

/-- C8: `cancel()` is idempotent — it always answers
`{ done: true, value: undefined }`, and a second `cancel()` leaves the
bus's listener lists and the subscription's state exactly as after the
first call (the callback is already deregistered, so the second `off`
is a no-op, and `dfd` is already cleared). -/
theorem c8_cancel_idempotent
    (s : SysState) (id : Nat) (sub : SubState)
    (hs : s.subs[id]? = some sub)
    (hcnt : (s.bus.get sub.evt).count (Listener.subscribed id) ≤ 1) :
    (cancel s id).2 = ⟨true, JSValue.undefined⟩ ∧
    (cancel (cancel s id).1 id).2 = ⟨true, JSValue.undefined⟩ ∧
    (cancel (cancel s id).1 id).1 = (cancel s id).1 := by
  have hc := cancel_eq s id sub hs
  have hs1 : (s.subs.set id { sub with dfd := none })[id]? =
      some { sub with dfd := none } := by
    rw [List.getElem?_set_self', hs]
    rfl
  have hsubs1 : (cancel s id).1.subs[id]? = some { sub with dfd := none } := by
    rw [hc]
    exact hs1
  have hc2 := cancel_eq (cancel s id).1 id { sub with dfd := none } hsubs1
  have hb1 : (cancel s id).1.bus.get sub.evt =
      removeLastOcc (s.bus.get sub.evt) (Listener.subscribed id) := by
    rw [hc]
    exact Bus.get_set_self _ _ _
  have hnm : Listener.subscribed id ∉ (cancel s id).1.bus.get sub.evt := by
    rw [hb1]
    exact not_mem_removeLastOcc _ _ hcnt
  have hrm : removeLastOcc ((cancel s id).1.bus.get sub.evt) (Listener.subscribed id) =
      (cancel s id).1.bus.get sub.evt := removeLastOcc_of_not_mem _ _ hnm
  have hsetbus : (cancel s id).1.bus.set sub.evt ((cancel s id).1.bus.get sub.evt) =
      (cancel s id).1.bus := Bus.set_get _ _
  have hsetsubs : (cancel s id).1.subs.set id { sub with dfd := none } =
      (cancel s id).1.subs := list_set_self _ _ _ hsubs1
  refine ⟨by rw [hc], by rw [hc2], ?_⟩
  rw [hc2]
  show (⟨Bus.set (cancel s id).1.bus sub.evt (removeLastOcc ((cancel s id).1.bus.get sub.evt) (Listener.subscribed id)), (cancel s id).1.subs.set id { sub with dfd := none }, (cancel s id).1.promises, (cancel s id).1.log⟩ : SysState) = (cancel s id).1
  rw [hrm, hsetbus, hsetsubs]

/-- Witness for C8: double cancellation of a concrete subscription. -/
theorem c8_witness :
    ((subscribeTo initState .authChange true).1.subs[0]? = some ⟨.authChange, true, false, none⟩ ∧
     ((subscribeTo initState .authChange true).1.bus.get .authChange).count (Listener.subscribed 0) ≤ 1) ∧
    ((cancel (subscribeTo initState .authChange true).1 0).2 = ⟨true, JSValue.undefined⟩ ∧
     (cancel (cancel (subscribeTo initState .authChange true).1 0).1 0).2 = ⟨true, JSValue.undefined⟩ ∧
     (cancel (cancel (subscribeTo initState .authChange true).1 0).1 0).1 = (cancel (subscribeTo initState .authChange true).1 0).1) :=
  ⟨⟨by decide, by decide⟩,
   c8_cancel_idempotent (subscribeTo initState .authChange true).1 0
     ⟨.authChange, true, false, none⟩ (by decide) (by decide)⟩

/-- C9: `signal` on an event name with zero registered listeners does
not throw and has no observable effect: the emit returns the state
unchanged and reports no error. -/
theorem c9_signal_without_listeners_is_noop
    (s : SysState) (e : EvtName) (v : JSValue)
    (h : s.bus.get e = []) : emitS s e v = (s, none) := by
  unfold emitS
  rw [h, runListeners]

/-- Witness for C9 at the empty state. -/
theorem c9_witness :
    initState.bus.get .devChange = [] ∧
    emitS initState .devChange (JSValue.raw 0) = (initState, none) :=
  ⟨rfl, c9_signal_without_listeners_is_noop initState .devChange (JSValue.raw 0) rfl⟩

/-- C10: the typed publishers `authChange()`, `devChange()` and
`browserStatusChange()` all signal through `_emit` with no payload, so
the listeners receive `undefined`; consequently any pending `pull()`
slot that one of these publishers resolves is resolved with
`undefined` — the consumer never receives data in the
notification. -/
theorem c10_publishers_carry_no_payload :
    (∀ s, authChange s = emitS s .authChange JSValue.undefined) ∧
    (∀ s, devChange s = emitS s .devChange JSValue.undefined) ∧
    (∀ s, browserStatusChange s = emitS s .browserStatusChange JSValue.undefined) ∧
    (∀ (s : SysState) (pid : Nat), s.promises[pid]? = some none →
      (∀ w, (authChange s).1.promises[pid]? = some (some w) → w = JSValue.undefined) ∧
      (∀ w, (devChange s).1.promises[pid]? = some (some w) → w = JSValue.undefined) ∧
      (∀ w, (browserStatusChange s).1.promises[pid]? = some (some w) → w = JSValue.undefined)) := by
  refine ⟨fun s => rfl, fun s => rfl, fun s => rfl, ?_⟩
  intro s pid hpend
  refine ⟨?_, ?_, ?_⟩
  · intro w hw
    have hw' : (runListeners s JSValue.undefined (s.bus.get .authChange)).1.promises[pid]? =
        some (some w) := hw
    rcases runListeners_pending_or JSValue.undefined pid (s.bus.get .authChange) s hpend with h | h
    · exact absurd (hw'.symm.trans h) (by simp)
    · simpa using hw'.symm.trans h
  · intro w hw
    have hw' : (runListeners s JSValue.undefined (s.bus.get .devChange)).1.promises[pid]? =
        some (some w) := hw
    rcases runListeners_pending_or JSValue.undefined pid (s.bus.get .devChange) s hpend with h | h
    · exact absurd (hw'.symm.trans h) (by simp)
    · simpa using hw'.symm.trans h
  · intro w hw
    have hw' : (runListeners s JSValue.undefined (s.bus.get .browserStatusChange)).1.promises[pid]? =
        some (some w) := hw
    rcases runListeners_pending_or JSValue.undefined pid (s.bus.get .browserStatusChange) s hpend with h | h
    · exact absurd (hw'.symm.trans h) (by simp)
    · simpa using hw'.symm.trans h

/-- Witness for C10: a suspended subscription on `authChange` is
resolved by the `authChange()` publisher, necessarily with
`undefined`. -/
theorem c10_witness :
    (next (subscribeTo initState .authChange false).1 0).1.promises[0]? = some none ∧
    (authChange (next (subscribeTo initState .authChange false).1 0).1).1.promises[0]? = some (some JSValue.undefined) ∧
    JSValue.undefined = JSValue.undefined :=
  ⟨by decide, by decide,
   (c10_publishers_carry_no_payload.2.2.2
      (next (subscribeTo initState .authChange false).1 0).1 0 (by decide)).1
     JSValue.undefined (by decide)⟩
